import Mathlib

/-! Shallow embedding of the firmata client core
(src/platforms/firmata/client/client.go, first file version; the second
concatenated version differs only in event plumbing and is noted where
relevant).  Go byte arithmetic is modelled on Nat with explicit % 256,
Go int64 bit accumulation with explicit % 2 ^ 64, and Go runtime panics
(out-of-range indexing and slicing) with Option none.
-/

namespace Gobot

/-- A pin of the firmata board (client.go, type Pin, lines 78-84).
Mode tags: Input = 0, Output = 1, Analog = 2, Pwm = 3, Servo = 4. -/
structure Pin where
  supportedModes : List Nat
  mode : Nat
  value : Nat
  state : Nat
  analogChannel : Nat
  deriving Repr, DecidableEq

/-- Response of an I2CReply message (client.go, type I2cReply, lines 87-91). -/
structure I2cReply where
  address : Nat
  register : Nat
  data : List Nat
  deriving Repr, DecidableEq

/-- The mutable client fields the dispatcher touches (client.go, type Client).
Channels and the transport are modelled separately: channel sends become
emitted Event values, the transport becomes an explicit byte list. -/
structure ClientState where
  pins : List Pin
  analogPins : List Nat
  protocolVersion : String
  firmwareName : List Nat
  deriving Repr, DecidableEq

/-- A non-blocking channel send performed by process (the select/default
blocks of client.go).  Signals model the boolChan map sends. -/
inductive Event where
  | protocolVersionSignal : Event
  | capabilitySignal : Event
  | analogMappingSignal : Event
  | firmwareSignal : Event
  | pinReport : Nat → Pin → Event
  | pinState : Nat → Pin → Event
  | i2c : I2cReply → Event
  | stringData : List Nat → Event
  deriving Repr, DecidableEq

/-- 14-bit encoding used by the request encoders, e.g. AnalogWrite
(client.go lines 237-247): lo = v AND 0x7F, hi = (v shr 7) AND 0x7F. -/
def pack14 (v : Nat) : Nat × Nat := (v &&& 127, (v >>> 7) &&& 127)

/-- 14-bit decoding used by the analog-message case of process
(client.go line 393): lo OR (hi shl 7), computed on uint. -/
def unpack14 (lo hi : Nat) : Nat := lo ||| (hi <<< 7)

/-- The same combination computed on Go byte operands, as in the digital
message case (line 409) and the I2CReply case (lines 501-514): the shift
hi shl 7 truncates to a byte before the OR. -/
def bytePair (lo hi : Nat) : Nat := lo ||| ((hi <<< 7) % 256)

/-- Client.read(length) (client.go lines 358-374): blocks until length
bytes are available.  On a finite stream, fewer available bytes means the
loop never returns: modelled as none. -/
def clientRead (n : Nat) (s : List Nat) : Option (List Nat × List Nat) :=
  if n ≤ s.length then some (s.take n, s.drop n) else none

/-- The sysex accumulation loop of process (client.go lines 425-434):
read one byte at a time, append it, stop after appending EndSysex (0xF7).
Running out of stream blocks forever: none. -/
def readSysexLoop : List Nat → List Nat → Option (List Nat × List Nat)
  | _, [] => none
  | buf, b :: rest =>
    if b = 247 then some (buf ++ [b], rest)
    else readSysexLoop (buf ++ [b]) rest

/-- One frame-reader step specialised to sysex frames: the initial
read(3) of process followed by the sysex accumulation loop
(client.go lines 377, 423-434). -/
def sysexStep (s : List Nat) : Option (List Nat × List Nat) :=
  match clientRead 3 s with
  | none => none
  | some (buf, rest) =>
    if buf[0]? = some 240 then readSysexLoop buf rest else none

/-- Bytes produced by writeSysex(data) (client.go lines 349-351):
StartSysex, data, EndSysex. -/
def writeSysexBytes (data : List Nat) : List Nat := 240 :: (data ++ [247])

/-- The mode tags the capability parser recognises
(client.go line 445: Input, Output, Analog, Pwm, Servo). -/
def modeList : List Nat := [0, 1, 2, 3, 4]

/-- The CapabilityResponse walk (client.go lines 438-461) over the sliced
buffer: a 0x7F (127) closes the current pin with the accumulated modes;
within a group even-positioned bytes OR a bit into the accumulator
(Go int arithmetic: % 2 ^ 64), odd-positioned bytes are skipped.  New pins
get Mode = Output (1) and zero values for the remaining fields. -/
def capabilityFold : List Nat → Nat → Nat → List Pin → List Pin
  | [], _, _, pins => pins
  | val :: rest, supported, n, pins =>
    if val = 127 then
      let modes := modeList.filter (fun m => (supported &&& (1 <<< m)) != 0)
      capabilityFold rest 0 0
        (pins ++ [{ supportedModes := modes, mode := 1, value := 0, state := 0,
                    analogChannel := 0 }])
    else if n = 0 then
      capabilityFold rest ((supported ||| ((1 <<< val) % 2 ^ 64)) % 2 ^ 64) (n ^^^ 1) pins
    else
      capabilityFold rest supported (n ^^^ 1) pins

/-- Assignment pins[i].AnalogChannel = val.  The AnalogMappingResponse walk
only produces indices below pins.length, so the fallback branch is dead. -/
def setAnalogChannel (pins : List Pin) (i val : Nat) : List Pin :=
  match pins[i]? with
  | some p => pins.set i { p with analogChannel := val }
  | none => pins

/-- The AnalogMappingResponse walk (client.go lines 467-478): assign each
analog channel in pin order and append the pin index to analogPins when
the channel byte is not 127. -/
def mappingFold : List Nat → Nat → List Pin → List Nat → List Pin × List Nat
  | [], _, pins, aps => (pins, aps)
  | val :: rest, pinIndex, pins, aps =>
    mappingFold rest (pinIndex + 1) (setAnalogChannel pins pinIndex val)
      (if val ≠ 127 then aps ++ [pinIndex] else aps)

/-- The PinStateResponse extended-state decoding (client.go lines 488-493):
OR in buffer byte 5 shifted by 7 when the frame is longer than 6 bytes, and
buffer byte 6 shifted by 14 when longer than 7 (uint arithmetic).  The
getD defaults are dead: the guards imply the indices are in range. -/
def extendState (cb : List Nat) (s : Nat) : Nat :=
  let s1 := if 6 < cb.length then s ||| ((cb[5]?.getD 0) <<< 7) else s
  if 7 < cb.length then s1 ||| ((cb[6]?.getD 0) <<< 14) else s1

/-- The I2CReply data loop (client.go lines 505-515), de-indexed: walking
the buffer from index 8, stop on EndSysex at the cursor or when fewer than
two bytes remain; otherwise consume a pair into one data byte. -/
def i2cDataLoop : List Nat → List Nat
  | [] => []
  | b :: rest =>
    if b = 247 then []
    else
      match rest with
      | [] => []
      | y :: rest2 => bytePair b y :: i2cDataLoop rest2

/-- Characterisation of the full I2CReply data extraction on a well-formed
body: pairs are consumed two at a time; a lone trailing byte is paired with
the EndSysex terminator 0xF7, whose truncated shift contributes 0x80. -/
def i2cPairs : List Nat → List Nat
  | [] => []
  | [x] => [x ||| 128]
  | x :: y :: rest => bytePair x y :: i2cPairs rest

/-- Modelled from the spec words of claim C8 for comparison: one data byte
per 7-bit pair via unpack14, stopping when an odd byte is left over. -/
def specI2cData : List Nat → List Nat
  | x :: y :: rest => unpack14 x y :: specI2cData rest
  | _ => []

/-- The digital-message loop of process (client.go lines 411-422): for
i = 0..7, when pin 8*port+i exists and its mode is Input (0), set its value
to the masked bit and send it to the report channel. -/
def digitalLoop (port portValue i : Nat) (pins : List Pin) (evs : List Event) :
    List Pin × List Event :=
  if _h : i < 8 then
    match pins[8 * port + i]? with
    | some p =>
      if p.mode = 0 then
        let p2 : Pin := { p with value := (portValue >>> (i &&& 7)) &&& 1 }
        digitalLoop port portValue (i + 1) (pins.set (8 * port + i) p2)
          (evs ++ [Event.pinReport (8 * port + i) p2])
      else digitalLoop port portValue (i + 1) pins evs
    | none => digitalLoop port portValue (i + 1) pins evs
  else (pins, evs)
termination_by 8 - i

/-- The sysex dispatch of process (client.go lines 435-538), one case per
subcommand byte of the accumulated frame cb.  Go slice-bound and
index-bound panics are none. -/
def sysexDispatch (st : ClientState) (cb rest : List Nat) :
    Option (ClientState × List Event × List Nat) :=
  match cb[1]? with
  | none => none
  | some command =>
    if command = 108 then
      -- CapabilityResponse: ranges over currentBuffer[2 : len-5]
      -- (line 442); the slice is invalid (panic) when len < 7.
      if cb.length < 7 then none
      else
        let pins := capabilityFold ((cb.take (cb.length - 5)).drop 2) 0 0 []
        some ({ st with pins := pins }, [Event.capabilitySignal], rest)
    else if command = 106 then
      -- AnalogMappingResponse: ranges over currentBuffer[2 : len(pins)-1]
      -- (line 470); invalid when len(pins)-1 < 2 or len(pins)-1 > len(cb).
      if st.pins.length < 3 ∨ cb.length < st.pins.length - 1 then none
      else
        let pr := mappingFold ((cb.take (st.pins.length - 1)).drop 2) 0 st.pins []
        some ({ st with pins := pr.1, analogPins := pr.2 },
          [Event.analogMappingSignal], rest)
    else if command = 110 then
      -- PinStateResponse (lines 484-498).
      match cb[2]?, cb[3]?, cb[4]? with
      | some pin, some m, some s0 =>
        match st.pins[pin]? with
        | some p =>
          let p2 : Pin := { p with mode := m, state := extendState cb s0 }
          some ({ st with pins := st.pins.set pin p2 }, [Event.pinState pin p2], rest)
        | none => none
      | _, _, _ => none
    else if command = 119 then
      -- I2CReply (lines 500-519): the first data pair at indices 6,7 is
      -- read unconditionally.
      match cb[2]?, cb[3]?, cb[4]?, cb[5]?, cb[6]?, cb[7]? with
      | some a0, some a1, some r0, some r1, some d0, some d1 =>
        let reply : I2cReply :=
          { address := bytePair a0 a1, register := bytePair r0 r1,
            data := bytePair d0 d1 :: i2cDataLoop (cb.drop 8) }
        some (st, [Event.i2c reply], rest)
      | _, _, _, _, _, _ => none
    else if command = 121 then
      -- FirmwareQuery response (lines 521-531): currentBuffer[4 : len-1],
      -- dropping zero bytes; invalid slice when len < 5.
      if cb.length < 5 then none
      else
        let nameBytes := ((cb.take (cb.length - 1)).drop 4).filter (fun v => v != 0)
        some ({ st with firmwareName := nameBytes }, [Event.firmwareSignal], rest)
    else if command = 113 then
      -- StringData (lines 532-537): emit currentBuffer[2:] without its
      -- final byte.
      let str := cb.drop 2
      some (st, [Event.stringData (str.take (str.length - 1))], rest)
    else
      some (st, [], rest)

/-- One step of Client.process (client.go lines 376-541): read 3 bytes,
classify, apply the frame to the state, return the new state, the channel
sends performed, and the unconsumed stream.  The final match arm is dead:
clientRead 3 always yields a 3-element buffer. -/
def process (st : ClientState) (s : List Nat) :
    Option (ClientState × List Event × List Nat) :=
  match clientRead 3 s with
  | none => none
  | some (buf, rest) =>
    match buf with
    | [b0, b1, b2] =>
      if b0 = 249 then
        some ({ st with protocolVersion := toString b1 ++ "." ++ toString b2 },
          [Event.protocolVersionSignal], rest)
      else if 224 ≤ b0 ∧ b0 ≤ 239 then
        -- Analog message: value on uint arithmetic (line 393).
        match st.analogPins[b0 &&& 15]? with
        | some target =>
          match st.pins[target]? with
          | some p =>
            let p2 : Pin := { p with value := unpack14 b1 b2 }
            some ({ st with pins := st.pins.set target p2 },
              [Event.pinReport target p2], rest)
          | none => some (st, [], rest)
        | none => some (st, [], rest)
      else if 144 ≤ b0 ∧ b0 ≤ 159 then
        -- Digital message: port value on byte arithmetic (line 409).
        let pr := digitalLoop (b0 &&& 15) (bytePair b1 b2) 0 st.pins []
        some ({ st with pins := pr.1 }, pr.2, rest)
      else if b0 = 240 then
        match readSysexLoop buf rest with
        | none => none
        | some (cb, r2) => sysexDispatch st cb r2
      else
        some (st, [], rest)
    | _ => none

/-- SetPinMode (client.go lines 200-206): write PinMode, byte(pin),
byte(mode) to the transport, then set pins[byte(pin)].Mode = mode.  No
check against supportedModes is performed.  Returns the new state and the
written bytes; an out-of-range pin index is a panic (none). -/
def setPinMode (st : ClientState) (pin mode : Nat) :
    Option (ClientState × List Nat) :=
  match st.pins[pin % 256]? with
  | some p =>
    some ({ st with pins := st.pins.set (pin % 256) { p with mode := mode } },
      [244, pin % 256, mode % 256])
  | none => none

/-- The DigitalWrite port-mask loop (client.go lines 215-219): for
i = 0..7 read pins[8*port+i].Value (byte index arithmetic) and OR bit i
into the mask when the value is nonzero.  An out-of-range read is a panic
(none). -/
def digitalWriteLoop (pins : List Pin) (port i portValue : Nat) : Option Nat :=
  if _h : i < 8 then
    match pins[(8 * port + i) % 256]? with
    | some p =>
      digitalWriteLoop pins port (i + 1)
        (if p.value ≠ 0 then portValue ||| (1 <<< i) else portValue)
    | none => none
  else some portValue
termination_by 8 - i

/-- DigitalWrite (client.go lines 209-221; identical logic in the second
file version, lines 741-753): port = byte(floor(pin/8)); set
pins[pin].Value = value; build the port mask from all 8 pins of the port;
emit DigitalMessage OR port with the 14-bit-packed mask. -/
def digitalWrite (st : ClientState) (pin value : Nat) :
    Option (ClientState × List Nat) :=
  let port := (pin / 8) % 256
  match st.pins[pin]? with
  | some p =>
    let pins2 := st.pins.set pin { p with value := value }
    match digitalWriteLoop pins2 port 0 0 with
    | some portValue =>
      some ({ st with pins := pins2 },
        [144 ||| port, portValue &&& 127, (portValue >>> 7) &&& 127])
    | none => none
  | none => none

/-- The statements executed in program order by the handshake goroutine of
Connect (client.go lines 156-168): send each query, block on its one-shot
channel, and in between send AnalogMappingQuery, set connected = true,
then block on the mapping signal, then enable digital reporting. -/
inductive HsEvent where
  | sendProtocolVersionQuery : HsEvent
  | waitProtocolVersion : HsEvent
  | sendFirmwareQuery : HsEvent
  | waitFirmware : HsEvent
  | sendCapabilityQuery : HsEvent
  | waitCapability : HsEvent
  | sendAnalogMappingQuery : HsEvent
  | setConnectedTrue : HsEvent
  | waitAnalogMapping : HsEvent
  | sendReportDigital : Nat → Nat → HsEvent
  deriving Repr, DecidableEq, BEq

/-- The handshake goroutine body of Connect, as the sequence of its
statements (client.go lines 156-168): note connected = true is executed
after sending AnalogMappingQuery but before receiving its signal. -/
def connectHandshakeSeq : List HsEvent :=
  [HsEvent.sendProtocolVersionQuery, HsEvent.waitProtocolVersion,
   HsEvent.sendFirmwareQuery, HsEvent.waitFirmware,
   HsEvent.sendCapabilityQuery, HsEvent.waitCapability,
   HsEvent.sendAnalogMappingQuery, HsEvent.setConnectedTrue,
   HsEvent.waitAnalogMapping,
   HsEvent.sendReportDigital 0 1, HsEvent.sendReportDigital 1 1]

/-- The state New() builds (client.go lines 94-115). -/
def initClient : ClientState :=
  { pins := [], analogPins := [], protocolVersion := "", firmwareName := [] }

/-- The Arduino Uno r3 capability response bytes of the repository test
suite (client_test.go, testCapabilitiesResponse): a sysex frame whose body
holds 20 pin groups, each terminated by 127. -/
def unoCapabilityStream : List Nat :=
  [240, 108, 127, 127, 0, 1, 1, 1, 4, 14, 127, 0, 1, 1, 1, 3,
   8, 4, 14, 127, 0, 1, 1, 1, 4, 14, 127, 0, 1, 1, 1, 3, 8, 4, 14, 127, 0, 1,
   1, 1, 3, 8, 4, 14, 127, 0, 1, 1, 1, 4, 14, 127, 0, 1, 1, 1, 4, 14, 127, 0,
   1, 1, 1, 3, 8, 4, 14, 127, 0, 1, 1, 1, 3, 8, 4, 14, 127, 0, 1, 1, 1, 3, 8,
   4, 14, 127, 0, 1, 1, 1, 4, 14, 127, 0, 1, 1, 1, 4, 14, 127, 0, 1, 1, 1, 2,
   10, 127, 0, 1, 1, 1, 2, 10, 127, 0, 1, 1, 1, 2, 10, 127, 0, 1, 1, 1, 2, 10,
   127, 0, 1, 1, 1, 2, 10, 6, 1, 127, 0, 1, 1, 1, 2, 10, 6, 1, 127, 247]

/-- The Arduino Uno r3 analog mapping response bytes of the repository test
suite (client_test.go, testAnalogMappingResponse): fourteen 127 bytes, then
channels 0..5. -/
def unoMappingStream : List Nat :=
  [240, 106, 127, 127, 127, 127, 127, 127, 127, 127, 127, 127,
   127, 127, 127, 127, 0, 1, 2, 3, 4, 5, 247]

/-- Client state after dispatching the Uno capability response. -/
def afterCapability : Option ClientState :=
  (process initClient unoCapabilityStream).map (fun r => r.1)

/-- Client state after the Uno capability response followed by the Uno
analog mapping response. -/
def afterMapping : Option ClientState :=
  afterCapability.bind fun st => (process st unoMappingStream).map (fun r => r.1)

/-- A pin as the capability parser creates it, before any message. -/
def freshPin : Pin :=
  { supportedModes := [], mode := 1, value := 0, state := 0, analogChannel := 0 }

/-- A one-pin client whose pin supports only Output (mode 1). -/
def outputOnlyClient : ClientState :=
  { pins := [{ supportedModes := [1], mode := 1, value := 0, state := 0,
               analogChannel := 0 }],
    analogPins := [], protocolVersion := "", firmwareName := [] }

/-- A three-pin client whose pins 0 and 2 are in Input mode. -/
def threePinClient : ClientState :=
  { pins := [{ freshPin with mode := 0 }, freshPin, { freshPin with mode := 0 }],
    analogPins := [], protocolVersion := "", firmwareName := [] }

/-- A twenty-pin client, the Arduino Uno pin-count shape. -/
def twentyPinClient : ClientState :=
  { pins := List.replicate 20 freshPin, analogPins := [],
    protocolVersion := "", firmwareName := [] }

/-- A pin with its mode field replaced (statement shorthand). -/
def setMode (p : Pin) (m : Nat) : Pin := { p with mode := m }

/-- An I2cReply record (statement shorthand). -/
def mkReply (a r : Nat) (d : List Nat) : I2cReply :=
  { address := a, register := r, data := d }

theorem and_fifteen_eq_mod (x : Nat) : x &&& 15 = x % 16 := by
  simpa using Nat.and_pow_two_sub_one_eq_mod x 4

theorem and_seven_eq_mod (x : Nat) : x &&& 7 = x % 8 := by
  simpa using Nat.and_pow_two_sub_one_eq_mod x 3

theorem and_sevenF_eq_mod (x : Nat) : x &&& 127 = x % 128 := by
  simpa using Nat.and_pow_two_sub_one_eq_mod x 7

/-- Reading three bytes from a stream holding at least three. -/
theorem clientRead_three (a b d : Nat) (s : List Nat) :
    clientRead 3 (a :: b :: d :: s) = some ([a, b, d], s) := by
  simp [clientRead]

/-- The sysex accumulation loop consumes exactly up to the first 247. -/
theorem readSysexLoop_append (acc body rest : List Nat) (h : ∀ x ∈ body, x ≠ 247) :
    readSysexLoop acc (body ++ 247 :: rest) = some (acc ++ body ++ [247], rest) := by
  induction body generalizing acc with
  | nil => simp [readSysexLoop]
  | cons b bs ih =>
    have hb : b ≠ 247 := h b (by simp)
    have ih2 := ih (acc ++ [b]) (fun x hx => h x (by simp [hx]))
    simp only [List.cons_append, readSysexLoop, if_neg hb, List.append_eq] at ih2 ⊢
    rw [ih2]
    simp

/-! Claims C1 -/

set_option maxRecDepth 40000 in
/-- C1: after the Arduino Uno capability response, whose body holds twenty
0x7F terminators, the pin table has 19 entries, not 20: the parser drops
the final four body bytes, among them the twentieth terminator
(client.go line 442 slices currentBuffer[2 : len-5]).  The supported-modes
subset half of the claim does hold at this input. -/
theorem capabilityResponse_pin_count_at_uno :
    (unoCapabilityStream.drop 2).dropLast.count 127 = 20 ∧
    afterCapability.map (fun st => st.pins.length) = some 19 ∧
    afterCapability.map
      (fun st => st.pins.all fun p => p.supportedModes.all fun m => modeList.contains m)
      = some true := by decide

/-! Claims C2 -/

set_option maxRecDepth 40000 in
/-- C2: after the Uno capability response followed by the Uno analog
mapping response, the analog-pin map is [14, 15], not [14, 15, 16, 17, 18,
19]: the mapping walk ranges over currentBuffer[2 : len(pins)-1]
(client.go line 470), and the pin table has 19 entries (claim C1), so only
the first sixteen body bytes are visited. -/
theorem analogMapping_truncated_at_uno :
    afterMapping.map (fun st => st.analogPins) = some [14, 15] ∧
    ([14, 15] : List Nat) ≠ [14, 15, 16, 17, 18, 19] := by decide

/-! Claims C3 -/

/-- C3: for every v in [0, 16383], encoding as the request encoders do
(client.go lines 240-241) and decoding as the dispatcher does (line 393)
returns v. -/
theorem unpack14_pack14_roundtrip (v : Nat) (h : v ≤ 16383) :
    unpack14 (pack14 v).1 (pack14 v).2 = v := by
  unfold pack14 unpack14
  have e1 : v >>> 7 = v / 128 := by
    rw [Nat.shiftRight_eq_div_pow]
  have e2 : v / 128 % 128 = v / 128 := Nat.mod_eq_of_lt (by omega)
  have e3 : (v / 128) <<< 7 = 2 ^ 7 * (v / 128) := by rw [Nat.shiftLeft_eq, mul_comm]
  have e4 : v % 128 < 2 ^ 7 := by
    have h1 : v % 128 < 128 := Nat.mod_lt v (by norm_num)
    simpa using h1
  rw [and_sevenF_eq_mod, e1, and_sevenF_eq_mod, e2, e3, Nat.or_comm,
    ← Nat.mul_add_lt_is_or e4 (v / 128)]
  have e6 : (2 : Nat) ^ 7 = 128 := by norm_num
  rw [e6]
  omega

/-- C3 witness at v = 675. -/
theorem unpack14_pack14_roundtrip_witness :
    675 ≤ 16383 ∧ unpack14 (pack14 675).1 (pack14 675).2 = 675 :=
  ⟨by decide, unpack14_pack14_roundtrip 675 (by decide)⟩

/-! Claims C4 -/

/-- C4 counterexample: the empty body and a one-byte body do not round
trip.  The reader first reads three bytes unconditionally (client.go line
377) and then always reads at least one more (lines 425-434), so on the
two-byte frame sysex(empty) and the three-byte frame sysex([5]) it runs
past the end of the frame and never returns it. -/
theorem sysex_roundtrip_fails_short_bodies :
    (sysexStep (writeSysexBytes [])).map (fun r => (r.1.drop 1).dropLast) ≠ some [] ∧
    (sysexStep (writeSysexBytes [5])).map (fun r => (r.1.drop 1).dropLast) ≠ some [5] := by
  decide

/-- C4 amended: for every body B with no 0xF7 and at least two bytes,
running the sysex reader step on the writeSysex framing of B consumes
exactly the frame and recovers B as the accumulated buffer without its
leading 0xF0 and trailing 0xF7. -/
theorem sysex_roundtrip_of_two_le_length (B : List Nat) (h2 : 2 ≤ B.length)
    (h7 : ∀ x ∈ B, x ≠ 247) :
    sysexStep (writeSysexBytes B) = some (240 :: (B ++ [247]), []) ∧
    ((240 :: (B ++ [247])).drop 1).dropLast = B := by
  constructor
  · match B, h2, h7 with
    | b0 :: b1 :: bs, _, h7 =>
      have key := readSysexLoop_append [240, b0, b1] bs []
        (fun x hx => h7 x (by simp [hx]))
      have hw : writeSysexBytes (b0 :: b1 :: bs) = 240 :: b0 :: b1 :: (bs ++ 247 :: []) := by
        simp [writeSysexBytes]
      rw [hw]
      simp only [sysexStep, clientRead_three, List.getElem?_cons_zero]
      rw [if_true, key]
      simp
  · simp only [List.drop_succ_cons, List.drop_zero, List.dropLast_concat]

/-- C4 witness at B = [108, 13]. -/
theorem sysex_roundtrip_of_two_le_length_witness :
    2 ≤ ([108, 13] : List Nat).length ∧
    (sysexStep (writeSysexBytes [108, 13]) = some (240 :: ([108, 13] ++ [247]), []) ∧
      ((240 :: (([108, 13] : List Nat) ++ [247])).drop 1).dropLast = [108, 13]) :=
  ⟨by decide, sysex_roundtrip_of_two_le_length [108, 13] (by decide) (by decide)⟩

/-! Claims C5 -/

/-- C5 counterexample: on a client whose only pin supports just Output,
SetPinMode(0, Input) does not return an UnsupportedMode error: it writes
[0xF4, 0, 0] to the transport and sets the pin mode to Input
(client.go lines 200-206 perform no supported-modes check). -/
theorem setPinMode_no_unsupported_mode_check :
    (∀ p ∈ outputOnlyClient.pins, 0 ∉ p.supportedModes) ∧
    (setPinMode outputOnlyClient 0 0).map (fun r => r.2) = some [244, 0, 0] ∧
    (setPinMode outputOnlyClient 0 0).map (fun r => r.1.pins.map Pin.mode) = some [0] := by
  decide

/-- C5 amended: SetPinMode performs no supported-modes validation.  For
every in-range pin index and every mode whatsoever it writes
[0xF4, byte(pin), byte(mode)] and sets the pin mode. -/
theorem setPinMode_always_writes_and_sets_mode (st : ClientState) (pin mode : Nat)
    (h : pin % 256 < st.pins.length) :
    setPinMode st pin mode =
      some ({ st with
        pins := st.pins.set (pin % 256) (setMode (st.pins.get ⟨pin % 256, h⟩) mode) },
        [244, pin % 256, mode % 256]) := by
  simp [setPinMode, setMode, List.getElem?_eq_getElem h]

/-- C5 witness: pin 0, mode 3 on the one-pin client. -/
theorem setPinMode_always_writes_and_sets_mode_witness :
    0 % 256 < outputOnlyClient.pins.length ∧
    setPinMode outputOnlyClient 0 3 =
      some ({ outputOnlyClient with
        pins := outputOnlyClient.pins.set (0 % 256)
            (setMode (outputOnlyClient.pins.get ⟨0 % 256, by decide⟩) 3) },
        [244, 0 % 256, 3 % 256]) :=
  ⟨by decide, setPinMode_always_writes_and_sets_mode outputOnlyClient 0 3 (by decide)⟩

/-! Claims C7 -/

/-- C9 counterexample: in the handshake goroutine of Connect the statement
connected = true (client.go line 164) precedes the receive on the
AnalogMappingQuery one-shot (line 165), so connected is observably true
before the mapping response has been received and processed. -/
theorem connected_set_before_mapping_response :
    connectHandshakeSeq.indexOf HsEvent.setConnectedTrue <
      connectHandshakeSeq.indexOf HsEvent.waitAnalogMapping := by decide

/-- C9 amended: Connect issues the four queries in order, each gated on
the previous signal, but sets connected = true immediately after sending
AnalogMappingQuery and before receiving its signal; the two
ReportDigital(port, 1) writes happen only after the mapping signal. -/
theorem connect_sequence_order :
    connectHandshakeSeq.indexOf HsEvent.waitCapability <
      connectHandshakeSeq.indexOf HsEvent.sendAnalogMappingQuery ∧
    connectHandshakeSeq.indexOf HsEvent.sendAnalogMappingQuery <
      connectHandshakeSeq.indexOf HsEvent.setConnectedTrue ∧
    connectHandshakeSeq.indexOf HsEvent.setConnectedTrue <
      connectHandshakeSeq.indexOf HsEvent.waitAnalogMapping ∧
    connectHandshakeSeq.indexOf HsEvent.waitAnalogMapping <
      connectHandshakeSeq.indexOf (HsEvent.sendReportDigital 0 1) ∧
    connectHandshakeSeq.indexOf (HsEvent.sendReportDigital 0 1) <
      connectHandshakeSeq.indexOf (HsEvent.sendReportDigital 1 1) := by decide

/-! Claims C6 -/

/-- A stream beginning with StartSysex takes the sysex path of process. -/
theorem process_sysex (st : ClientState) (b1 b2 : Nat) (rest : List Nat) :
    process st (240 :: b1 :: b2 :: rest) =
      match readSysexLoop [240, b1, b2] rest with
      | none => none
      | some (cb, r2) => sysexDispatch st cb r2 := by
  simp only [process, clientRead_three]
  rfl

/-- Indices outside the remaining iteration range are untouched by the
digital-message loop. -/
theorem digitalLoop_untouched (port pv n : Nat) :
    ∀ k i pins evs, 8 - i = k → (∀ j, i ≤ j → j < 8 → 8 * port + j ≠ n) →
      ((digitalLoop port pv i pins evs).1)[n]? = pins[n]? := by
  intro k
  induction k with
  | zero =>
    intro i pins evs hk hj
    unfold digitalLoop
    rw [dif_neg (by omega)]
  | succ m ih =>
    intro i pins evs hk hj
    unfold digitalLoop
    rw [dif_pos (show i < 8 by omega)]
    cases hp : pins[8 * port + i]? with
    | none =>
      dsimp only
      exact ih (i + 1) pins evs (by omega) (fun j h1 h2 => hj j (by omega) h2)
    | some p =>
      dsimp only
      by_cases hm : p.mode = 0
      · rw [if_pos hm]
        rw [ih (i + 1) _ _ (by omega) (fun j h1 h2 => hj j (by omega) h2)]
        exact List.getElem?_set_ne (hj i (by omega) (by omega))
      · rw [if_neg hm]
        exact ih (i + 1) pins evs (by omega) (fun j h1 h2 => hj j (by omega) h2)

/-- The digital-message loop maps the pin at index 8*port+j, j < 8, through
the Input-mode conditional update. -/
theorem digitalLoop_touched (port pv : Nat) (j : Nat) (hj : j < 8) :
    ∀ k i pins evs, 8 - i = k → i ≤ j →
      ((digitalLoop port pv i pins evs).1)[8 * port + j]? =
        (pins[8 * port + j]?).map
          (fun p => if p.mode = 0 then { p with value := (pv >>> (j &&& 7)) &&& 1 } else p) := by
  intro k
  induction k with
  | zero => intro i pins evs hk hij; omega
  | succ m ih =>
    intro i pins evs hk hij
    unfold digitalLoop
    rw [dif_pos (show i < 8 by omega)]
    by_cases hji : i = j
    · subst hji
      cases hp : pins[8 * port + i]? with
      | none =>
        dsimp only
        rw [digitalLoop_untouched port pv (8 * port + i) (8 - (i + 1)) (i + 1) pins evs rfl
          (fun j2 h1 h2 => by omega)]
        rw [hp]
        rfl
      | some p =>
        have hlt : 8 * port + i < pins.length := by
          by_contra hc
          rw [List.getElem?_eq_none (by omega)] at hp
          exact Option.noConfusion hp
        dsimp only
        by_cases hm : p.mode = 0
        · rw [if_pos hm]
          rw [digitalLoop_untouched port pv (8 * port + i) (8 - (i + 1)) (i + 1) _ _ rfl
            (fun j2 h1 h2 => by omega)]
          rw [List.getElem?_set_self hlt]
          simp [hm]
        · rw [if_neg hm]
          rw [digitalLoop_untouched port pv (8 * port + i) (8 - (i + 1)) (i + 1) pins evs rfl
            (fun j2 h1 h2 => by omega)]
          rw [hp]
          simp [hm]
    · cases hp : pins[8 * port + i]? with
      | none =>
        dsimp only
        exact ih (i + 1) pins evs (by omega) (by omega)
      | some p =>
        dsimp only
        by_cases hm : p.mode = 0
        · rw [if_pos hm, ih (i + 1) _ _ (by omega) (by omega),
            List.getElem?_set_ne (by omega)]
        · rw [if_neg hm]
          exact ih (i + 1) pins evs (by omega) (by omega)

/-- C6: for a digital message on a port, each pin 8*port+bit of that port
is left unchanged when its mode is not Input (0), and has its value set to
the corresponding mask bit when its mode is Input (client.go lines
405-422). -/
theorem digital_message_input_pins_only (st : ClientState) (port b1 b2 bit : Nat)
    (hport : port < 16) (hbit : bit < 8) :
    (process st [144 + port, b1, b2]).map (fun r => r.1.pins[8 * port + bit]?) =
      some ((st.pins[8 * port + bit]?).map
        (fun p => if p.mode = 0 then { p with value := (bytePair b1 b2 >>> bit) &&& 1 } else p)) := by
  have hb0 : (144 + port) &&& 15 = port := by
    rw [and_fifteen_eq_mod]; omega
  have hbit7 : bit &&& 7 = bit := by
    rw [and_seven_eq_mod]; omega
  have hmain : process st [144 + port, b1, b2] =
      some ({ st with pins := (digitalLoop port (bytePair b1 b2) 0 st.pins []).1 },
        (digitalLoop port (bytePair b1 b2) 0 st.pins []).2, []) := by
    simp only [process, clientRead_three]
    rw [if_neg (by omega), if_neg (by omega), if_pos (by omega), hb0]
  rw [hmain]
  have ht := digitalLoop_touched port (bytePair b1 b2) bit hbit 8 0 st.pins [] rfl (by omega)
  rw [hbit7] at ht
  simp only [Option.map_some']
  rw [ht]

/-- C6 witness: the three-pin client, frame [0x90, 4, 0], pin 2 (Input). -/
theorem digital_message_input_pins_only_witness :
    0 < 16 ∧ 2 < 8 ∧
    (process threePinClient [144 + 0, 4, 0]).map (fun r => r.1.pins[8 * 0 + 2]?) =
      some ((threePinClient.pins[8 * 0 + 2]?).map
        (fun p => if p.mode = 0 then { p with value := (bytePair 4 0 >>> 2) &&& 1 } else p)) :=
  ⟨by decide, by decide,
    digital_message_input_pins_only threePinClient 0 4 0 2 (by decide) (by decide)⟩

/-! Claims C8 -/

/-- C8 counterexample: on the frame [240, 119, 9, 0, 0, 0, 24, 247] the
claimed decoding rule (pairs from offset 4 until EndSysex or an odd
leftover byte) produces no data bytes, but process emits data [152]: the
lone byte 24 is paired with the EndSysex terminator itself, 24 OR 0x80. -/
theorem i2cReply_lone_byte_not_dropped :
    (process initClient [240, 119, 9, 0, 0, 0, 24, 247]).map (fun r => r.2.1) =
      some [Event.i2c { address := 9, register := 0, data := [152] }] ∧
    specI2cData [24] = [] := by decide

/-- On a terminator-free data tail the I2CReply loop consumes pairs up to
the final EndSysex, pairing a lone trailing byte with the terminator. -/
theorem i2cDataLoop_append_term :
    ∀ d : List Nat, (∀ x ∈ d, x ≠ 247) → i2cDataLoop (d ++ [247]) = i2cPairs d
  | [], _ => by simp [i2cDataLoop, i2cPairs]
  | [x], h => by
    have hx : x ≠ 247 := h x (by simp)
    have hsh : (247 <<< 7) % 256 = 128 := by decide
    simp only [List.cons_append, List.nil_append, i2cDataLoop, if_neg hx, i2cPairs,
      bytePair, hsh]
  | x :: y :: rest, h => by
    have hx : x ≠ 247 := h x (by simp)
    simp only [List.cons_append, i2cDataLoop, if_neg hx, i2cPairs, List.append_eq]
    rw [i2cDataLoop_append_term rest (fun z hz => h z (by simp [hz]))]

/-- The I2CReply branch of the dispatcher on a frame with at least eight
bytes before the tail. -/
theorem sysexDispatch_i2c (st : ClientState) (a0 a1 r0 r1 x y : Nat) (tail rest : List Nat) :
    sysexDispatch st (240 :: 119 :: a0 :: a1 :: r0 :: r1 :: x :: y :: tail) rest =
      some (st, [Event.i2c (mkReply (bytePair a0 a1) (bytePair r0 r1)
        (bytePair x y :: i2cDataLoop tail))], rest) := by
  simp [sysexDispatch, mkReply]

/-- The I2CReply branch on a frame with only address and register bytes:
the access at buffer index 7 (client.go line 503) is out of range. -/
theorem sysexDispatch_i2c_oob (st : ClientState) (a0 a1 r0 r1 : Nat) (rest : List Nat) :
    sysexDispatch st [240, 119, a0, a1, r0, r1, 247] rest = none := by
  simp [sysexDispatch]

/-- C8 amended: an I2CReply frame with body a0 a1 r0 r1 followed by a
terminator-free data tail d: with no data byte at all the dispatcher
indexes past the end of the frame buffer (client.go line 503, a panic);
otherwise it decodes address bytePair a0 a1 and register bytePair r0 r1,
consumes the data pair at offset 4 unconditionally, then pairs until
EndSysex at a pair boundary, and pairs a lone trailing byte with the
EndSysex byte itself (contributing 0x80) instead of dropping it
(client.go lines 499-519). -/
theorem i2cReply_decode (st : ClientState) (a0 a1 r0 r1 : Nat) (d : List Nat)
    (ha1 : a1 ≠ 247) (hr0 : r0 ≠ 247) (hr1 : r1 ≠ 247)
    (hd : ∀ x ∈ d, x ≠ 247) :
    process st ([240, 119, a0, a1, r0, r1] ++ d ++ [247]) =
      if d = [] then none
      else some (st, [Event.i2c (mkReply (bytePair a0 a1) (bytePair r0 r1) (i2cPairs d))], [])
      := by
  have hbody : ∀ x ∈ a1 :: r0 :: r1 :: d, x ≠ 247 := by
    intro x hx
    simp only [List.mem_cons] at hx
    rcases hx with h | h | h | h
    · exact h ▸ ha1
    · exact h ▸ hr0
    · exact h ▸ hr1
    · exact hd x h
  have key := readSysexLoop_append [240, 119, a0] (a1 :: r0 :: r1 :: d) [] hbody
  have hstream : [240, 119, a0, a1, r0, r1] ++ d ++ [247] =
      240 :: 119 :: a0 :: (a1 :: r0 :: r1 :: (d ++ 247 :: [])) := by simp
  rw [hstream]
  rw [process_sysex]
  simp only [List.cons_append, List.nil_append] at key
  rw [key]
  rcases d with _ | ⟨x, _ | ⟨y, rest⟩⟩
  · rw [if_pos rfl]
    simp only [List.nil_append]
    exact sysexDispatch_i2c_oob st a0 a1 r0 r1 []
  · rw [if_neg (by simp)]
    simp only [List.cons_append, List.nil_append]
    rw [sysexDispatch_i2c]
    have hsh : bytePair x 247 = x ||| 128 := by simp [bytePair]
    simp [i2cPairs, i2cDataLoop, hsh]
  · rw [if_neg (by simp)]
    have hrest : ∀ z ∈ rest, z ≠ 247 := fun z hz => hd z (by simp [hz])
    simp only [List.cons_append]
    rw [sysexDispatch_i2c, i2cDataLoop_append_term rest hrest]
    simp only [i2cPairs]

/-- C8 witness: the frame of the specification scenario, whose decoded
reply is I2cReply with address 9, register 0, data [152, 1, 154]. -/
theorem i2cReply_decode_witness :
    ([24, 1, 1, 0, 26, 1] : List Nat) ≠ [] ∧
    bytePair 9 0 = 9 ∧ bytePair 0 0 = 0 ∧ i2cPairs [24, 1, 1, 0, 26, 1] = [152, 1, 154] ∧
    process initClient ([240, 119, 9, 0, 0, 0] ++ [24, 1, 1, 0, 26, 1] ++ [247]) =
      some (initClient,
        [Event.i2c (mkReply (bytePair 9 0) (bytePair 0 0) (i2cPairs [24, 1, 1, 0, 26, 1]))],
        []) :=
  ⟨by decide, by decide, by decide, by decide,
    by simpa using i2cReply_decode initClient 9 0 0 0 [24, 1, 1, 0, 26, 1] (by decide) (by decide) (by decide) (by decide)⟩

/-! Claims C7, amended -/

/-- When the last index of the port block is out of range, the DigitalWrite
mask loop panics (none), whatever the accumulator. -/
theorem digitalWriteLoop_oob (pins : List Pin) (port : Nat)
    (hoob : pins[(8 * port + 7) % 256]? = none) :
    ∀ k i pv, 8 - i = k → i ≤ 7 → digitalWriteLoop pins port i pv = none := by
  intro k
  induction k with
  | zero => intro i pv hk hi; omega
  | succ m ih =>
    intro i pv hk hi
    unfold digitalWriteLoop
    rw [dif_pos (show i < 8 by omega)]
    by_cases h7 : i = 7
    · subst h7
      rw [hoob]
    · cases hp : pins[(8 * port + i) % 256]? with
      | none => rfl
      | some p =>
        dsimp only
        exact ih (i + 1) _ (by omega) (by omega)

/-- C10: DigitalWrite reads all eight pins of the port of p to build the
port mask (client.go lines 215-219); when the pin table ends inside that
port (no byte wrap: 8*(p/8)+7 at most 255), the read at index 8*(p/8)+7 is
out of range and DigitalWrite panics even though p itself is valid. -/
theorem digitalWrite_oob_on_partial_port (st : ClientState) (p v : Nat)
    (h1 : p < st.pins.length) (h2 : st.pins.length ≤ 8 * (p / 8) + 7)
    (h3 : 8 * (p / 8) + 7 ≤ 255) :
    digitalWrite st p v = none := by
  have hport : (p / 8) % 256 = p / 8 := Nat.mod_eq_of_lt (by omega)
  have hidx : (8 * (p / 8) + 7) % 256 = 8 * (p / 8) + 7 := Nat.mod_eq_of_lt (by omega)
  have hoob : (st.pins.set p { st.pins[p] with value := v })[(8 * (p / 8) + 7) % 256]? = none := by
    rw [hidx]
    apply List.getElem?_eq_none
    simpa using h2
  simp only [digitalWrite, List.getElem?_eq_getElem h1, hport]
  rw [digitalWriteLoop_oob _ _ hoob 8 0 0 rfl (by omega)]

/-- C10 witness: the twenty-pin table and valid pin 19; the mask loop
reads index 23, past the end of the table. -/
theorem digitalWrite_oob_on_partial_port_witness :
    19 < twentyPinClient.pins.length ∧ digitalWrite twentyPinClient 19 1 = none :=
  ⟨by decide,
    digitalWrite_oob_on_partial_port twentyPinClient 19 1 (by decide) (by decide) (by decide)⟩

end Gobot
